import Mathlib

/-!
Shallow embedding of the Travel-Copilot repository (src/main.py) for the
verification of its specification claims.

The embedding covers the text-classification helpers
(detect_flight_pattern, is_research_query), the AeroAPI status-fetch
helper, and the periodic batch pass check_and_send_reminders together
with the data it touches.  Timestamps are modelled as UTC seconds
(Int); every external call (supabase select/update, Twilio send,
datetime.fromisoformat) is modelled through an explicit environment of
outcomes, and every try/except of the source is translated into the
corresponding branch, so that the Lean functions are total exactly
where the Python swallows exceptions.
-/

namespace TravelCopilot

/-- Python default whitespace, as stripped by str.strip. -/
def pyWhitespace (c : Char) : Bool :=
  c == ' ' || c == '\t' || c == '\n' || c == '\r' || c == '\x0b' || c == '\x0c'

/-- The Python str.strip method on an exploded character list: drop
whitespace from both ends. -/
def pyStrip (cs : List Char) : List Char :=
  ((cs.dropWhile pyWhitespace).reverse.dropWhile pyWhitespace).reverse

/-- The Python str.upper method on one character, modelled on ASCII
(the repository only ever matches the result against ASCII classes). -/
def upChar (c : Char) : Char :=
  if 'a' ≤ c && c ≤ 'z' then Char.ofNat (c.toNat - 32) else c

/-- The Python str.lower method on one character, modelled on ASCII. -/
def lowChar (c : Char) : Char :=
  if 'A' ≤ c && c ≤ 'Z' then Char.ofNat (c.toNat + 32) else c

/-- ASCII uppercase letter test, the character class of the flight-number
regular expression in src/main.py line 86. -/
def isUpperAlpha (c : Char) : Bool := 'A' ≤ c && c ≤ 'Z'

/-- ASCII digit test, the digit class of the flight-number regular
expression. -/
def isDigitChar (c : Char) : Bool := '0' ≤ c && c ≤ '9'

/-- Full match of the pattern of two uppercase letters followed by three
or four digits, on an exploded character list. -/
def flightChars (cs : List Char) : Bool :=
  (cs.length == 5 || cs.length == 6) &&
  (cs.take 2).all isUpperAlpha && (cs.drop 2).all isDigitChar

/-- Embedding of detect_flight_pattern (src/main.py lines 79-89): trim
and upper-case the text; if the result is exactly two letters followed
by three or four digits, return it, else return none. -/
def detect_flight_pattern (text : String) : Option String :=
  let lo := (pyStrip text.toList).map upChar
  if flightChars lo then some (String.mk lo) else none

/-- Whether the first list occurs at the head of the second: the Python
str.startswith method. -/
def leadMatch : List Char → List Char → Bool
  | [], _ => true
  | _ :: _, [] => false
  | p :: ps, c :: cs => p == c && leadMatch ps cs

/-- Whether the first list occurs anywhere inside the second: the Python
membership operator on strings. -/
def hasSub (pat : List Char) : List Char → Bool
  | [] => leadMatch pat []
  | c :: cs => leadMatch pat (c :: cs) || hasSub pat cs

/-- The interrogative openers of src/main.py line 109. -/
def palabras_inicio : List String :=
  ["qué", "cómo", "dónde", "cuándo", "por qué", "cual"]

/-- Embedding of is_research_query (src/main.py lines 92-110): a flight
pattern or a mention of the word vuelo rules research out; otherwise a
question mark or an interrogative opener rules it in. -/
def is_research_query (text : String) : Bool :=
  let lo := (pyStrip text.toList).map lowChar
  if (detect_flight_pattern text).isSome then false
  else if hasSub "vuelo".toList lo then false
  else hasSub ['?'] lo || palabras_inicio.any (fun p => leadMatch p.toList lo)

/-- Outcome of the requests.get call inside the AeroAPI helper: either
the call raised (network error, timeout, bad JSON), or it returned a
status code together with the flights array, each flight carrying its
status string and scheduled-departure string. -/
inductive AeroOutcome where
  | raised (msg : String)
  | status (code : Nat) (flights : List (String × String))
deriving DecidableEq, Repr

/-- Embedding of fetch_flight_status_from_aeroapi_given_dates
(src/main.py lines 176-222), up to the returned message text in the
success case (the strftime reformatting of the scheduled time is
abstracted as the raw string).  Every branch, the exception branch of
requests.get included, returns a string: the helper never raises to its
caller. -/
def fetch_flight_status_from_aeroapi_given_dates (hasKey : Bool)
    (outcome : AeroOutcome) (flight_number : String) : String :=
  if !hasKey then
    "No pude conectarme a AeroAPI. Estado estimado del vuelo " ++ flight_number ++
      ": (desconocido).\n(Configura AEROAPI_KEY para detalles reales.)"
  else
    match outcome with
    | .raised m => "Error al consultar AeroAPI: " ++ m
    | .status code flights =>
      if code ≠ 200 then
        "AeroAPI devolvió error (código " ++ toString code ++ ")."
      else
        match flights with
        | [] => "No hay datos disponibles para el vuelo " ++ flight_number ++
            " en ese rango."
        | v :: _ => "Estado del vuelo " ++ flight_number ++ ": " ++ v.1 ++
            ".\nHora prevista de salida (UTC): " ++ v.2 ++ "."

/-- A row of the trips table, with the columns selected by
check_and_send_reminders (src/main.py lines 262-267).  The whatsapp and
next_check_at columns are nullable; departure_date is kept as the raw
string that datetime.fromisoformat later parses; timestamps are UTC
seconds. -/
structure Trip where
  id : Nat
  client_name : String
  flight_number : String
  origin_iata : String
  destination_iata : String
  departure_date : String
  status : String
  whatsapp : Option String
  next_check_at : Option Int
deriving DecidableEq, Repr

/-- The trip store visible to the batch pass. -/
structure DBState where
  trips : List Trip
deriving DecidableEq, Repr

/-- Observable side effects of one batch pass: a Twilio send attempt
(ok records whether the client call succeeded), a write of
next_check_at through the trips table (ok records whether the update
call succeeded), and a FlightEvent append.  The source of
check_and_send_reminders contains no event-append call at all; the
appendEvent constructor exists only so that claims about FlightEvents
can be stated and settled. -/
inductive Effect where
  | send (tripId : Nat) (dst : String) (msgBody : String) (ok : Bool)
  | updateNext (tripId : Nat) (val : Option Int) (ok : Bool)
  | appendEvent (tripId : Nat) (newStatus : String)
deriving DecidableEq, Repr

/-- Environment of one batch pass: the outcomes of the external calls.
selectOk tells whether the initial supabase select succeeds; sendOk
whether the Twilio send for the trip with a given id succeeds; parseIso
is datetime.fromisoformat, returning a UTC timestamp in seconds or
failing; updateOk tells whether the supabase update for a given trip id
succeeds. -/
structure Env where
  selectOk : Bool
  sendOk : Nat → Bool
  parseIso : String → Option Int
  updateOk : Nat → Bool

/-- Python truthiness of the whatsapp column, as tested by the guard
`if not phone` (src/main.py line 275): null and the empty string are
falsy. -/
def phoneFalsy : Option String → Bool
  | none => true
  | some s => s == ""

/-- The reminder message body built at src/main.py lines 280-285. -/
def reminderMsg (t : Trip) : String :=
  "¡Hola " ++ t.client_name ++ "! Tu vuelo " ++ t.flight_number ++
  " de " ++ t.origin_iata ++ " a " ++ t.destination_iata ++
  " sale el " ++ t.departure_date ++
  " UTC. Te avisamos para que organices tu viaje. ¡Buen viaje! 🚀"

/-- The next-milestone computation of src/main.py lines 304-310: with
delta the signed distance from now to departure, if delta exceeds three
hours the next check is set to departure minus three hours, otherwise
next_check_at becomes null.  All times are UTC seconds, so three hours
is 10800. -/
def computeNextCheck (dep now : Int) : Option Int :=
  if dep - now > 10800 then some (dep - 10800) else none

/-- The per-trip body of the loop of check_and_send_reminders
(src/main.py lines 273-319): skip the trip outright when the whatsapp
column is falsy; otherwise attempt the Twilio send (an exception is
swallowed and the pipeline continues), parse departure_date (on failure
continue to the next trip without touching next_check_at), compute the
next milestone and attempt the update (an exception is swallowed and
the row stays unchanged).  Returns the effects emitted for this trip
and, when the update call succeeded, the value written to
next_check_at. -/
def processTrip (env : Env) (now : Int) (t : Trip) :
    List Effect × Option (Option Int) :=
  if phoneFalsy t.whatsapp then ([], none)
  else
    let sendEff : Effect :=
      .send t.id ("whatsapp:" ++ t.whatsapp.getD "") (reminderMsg t)
        (env.sendOk t.id)
    match env.parseIso t.departure_date with
    | none => ([sendEff], none)
    | some dep =>
      let nh := computeNextCheck dep now
      if env.updateOk t.id then
        ([sendEff, .updateNext t.id nh true], some nh)
      else
        ([sendEff, .updateNext t.id nh false], none)

/-- The supabase update filtered by id (src/main.py lines 313-317): set
next_check_at on every row whose id matches. -/
def applyUpdate (j : Nat) (v : Option Int) (l : List Trip) : List Trip :=
  l.map (fun u => if u.id == j then { u with next_check_at := v } else u)

/-- The for-loop over the due trips, threading the stored rows and
collecting the emitted effects in order. -/
def runDue (env : Env) (now : Int) : List Trip → List Trip → List Trip × List Effect
  | [], l => (l, [])
  | t :: rest, l =>
    let r := processTrip env now t
    let l2 := match r.2 with
      | none => l
      | some v => applyUpdate t.id v l
    let res := runDue env now rest l2
    (res.1, r.1 ++ res.2)

/-- Due selection (src/main.py lines 262-268): the single query
next_check_at <= now.  A null next_check_at never satisfies the SQL
comparison, so such rows are not selected. -/
def isDue (now : Int) (t : Trip) : Bool :=
  match t.next_check_at with
  | none => false
  | some v => decide (v ≤ now)

/-- The list of rows returned by the selection query of one batch pass. -/
def dueTrips (now : Int) (db : DBState) : List Trip :=
  db.trips.filter (isDue now)

/-- Embedding of check_and_send_reminders (src/main.py lines 253-319):
run the selection query inside its try/except (on failure the function
returns at once with no effect), then run the per-trip loop over the
selected snapshot. -/
def check_and_send_reminders (env : Env) (now : Int) (db : DBState) :
    DBState × List Effect :=
  if env.selectOk then
    let res := runDue env now (dueTrips now db) db.trips
    (⟨res.1⟩, res.2)
  else (db, [])

/-- Trip id carried by an effect. -/
def effId : Effect → Nat
  | .send j _ _ _ => j
  | .updateNext j _ _ => j
  | .appendEvent j _ => j

/-- Whether an effect is a message-send attempt. -/
def isSendEff : Effect → Bool
  | .send _ _ _ _ => true
  | _ => false

/-- Whether an effect is a FlightEvent append. -/
def isAppendEff : Effect → Bool
  | .appendEvent _ _ => true
  | _ => false

/-- The rows of a store that carry a given trip id. -/
def rowsWithId (j : Nat) (l : List Trip) : List Trip :=
  l.filter (fun u => u.id == j)

/-- The effects of a pass that concern a given trip id. -/
def effectsFor (j : Nat) (l : List Effect) : List Effect :=
  l.filter (fun e => effId e == j)

/-- One store step of the loop: apply the write-back of one trip, if
any.  Folding this over the due list gives the rows component of
runDue. -/
def wbStep (env : Env) (now : Int) (l : List Trip) (t : Trip) : List Trip :=
  match (processTrip env now t).2 with
  | none => l
  | some v => applyUpdate t.id v l

/-- A concrete ISO parser for witness scenarios: recognises one fixed
timestamp string. -/
def parseFix : String → Option Int :=
  fun s => if s == "2026-03-01T12:00:00" then some 1772366400 else none

/-- A concrete environment in which every external call succeeds. -/
def envAllOk : Env where
  selectOk := true
  sendOk := fun _ => true
  parseIso := parseFix
  updateOk := fun _ => true

/-- A concrete environment whose selection query fails. -/
def envSelFail : Env where
  selectOk := false
  sendOk := fun _ => true
  parseIso := parseFix
  updateOk := fun _ => true

/-- A concrete environment in which the Twilio send and the supabase
update raise for the trip with id 4, and succeed elsewhere. -/
def envFailAt4 : Env where
  selectOk := true
  sendOk := fun i => !(i == 4)
  parseIso := parseFix
  updateOk := fun i => !(i == 4)

/-- A concrete due trip with a valid phone and a parsable departure. -/
def tripAna : Trip :=
  ⟨1, "Ana", "AR1234", "EZE", "MAD", "2026-03-01T12:00:00", "A",
    some "+5491111111111", some 0⟩

/-- A concrete trip whose next_check_at is null. -/
def tripNullCheck : Trip :=
  ⟨2, "Bob", "LA567", "SCL", "LIM", "2026-03-01T12:00:00", "B",
    some "+5692222222222", none⟩

/-- A concrete due trip whose whatsapp column is null and whose
departure_date does not parse. -/
def tripNoPhone : Trip :=
  ⟨3, "Eva", "IB333", "MAD", "BCN", "not-a-date", "A", none, some 0⟩

/-- A concrete due trip with a valid phone whose departure_date does
not parse. -/
def tripBadDate : Trip :=
  ⟨4, "Gus", "AA444", "JFK", "LAX", "not-a-date", "A",
    some "+12025550123", some 0⟩

/-! ### General lemmas about the batch pass -/

/-- The effects of the loop do not depend on the threaded store: they
are the concatenation of the per-trip effects, in order. -/
theorem runDue_effects (env : Env) (now : Int) :
    ∀ (due l : List Trip),
      (runDue env now due l).2 =
        (due.map (fun t => (processTrip env now t).1)).flatten := by
  intro due
  induction due with
  | nil => intro l; rfl
  | cons t rest ih => intro l; simp [runDue, ih]

/-- The rows left by the loop are a fold of the per-trip write-backs. -/
theorem runDue_trips (env : Env) (now : Int) :
    ∀ (due l : List Trip),
      (runDue env now due l).1 = due.foldl (wbStep env now) l := by
  intro due
  induction due with
  | nil => intro l; rfl
  | cons t rest ih => intro l; simp [runDue, ih, wbStep]

/-- Every effect emitted for a trip carries that trip's id. -/
theorem processTrip_effIds (env : Env) (now : Int) (t : Trip) :
    ∀ e ∈ (processTrip env now t).1, effId e = t.id := by
  intro e he
  cases hp : phoneFalsy t.whatsapp with
  | true => simp [processTrip, hp] at he
  | false =>
    cases hq : env.parseIso t.departure_date with
    | none =>
      simp [processTrip, hp, hq] at he
      subst he; rfl
    | some dep =>
      cases hu : env.updateOk t.id with
      | true =>
        simp [processTrip, hp, hq, hu] at he
        rcases he with rfl | rfl <;> rfl
      | false =>
        simp [processTrip, hp, hq, hu] at he
        rcases he with rfl | rfl <;> rfl

/-- No effect emitted for a trip is a FlightEvent append: the source of
the batch pass contains no event-append call. -/
theorem processTrip_no_append (env : Env) (now : Int) (t : Trip) :
    ∀ e ∈ (processTrip env now t).1, isAppendEff e = false := by
  intro e he
  cases hp : phoneFalsy t.whatsapp with
  | true => simp [processTrip, hp] at he
  | false =>
    cases hq : env.parseIso t.departure_date with
    | none =>
      simp [processTrip, hp, hq] at he
      subst he; rfl
    | some dep =>
      cases hu : env.updateOk t.id with
      | true =>
        simp [processTrip, hp, hq, hu] at he
        rcases he with rfl | rfl <;> rfl
      | false =>
        simp [processTrip, hp, hq, hu] at he
        rcases he with rfl | rfl <;> rfl

/-- Every trip with a truthy phone gets exactly its send attempt
emitted, whatever happens afterwards. -/
theorem processTrip_send_mem (env : Env) (now : Int) (t : Trip)
    (h : phoneFalsy t.whatsapp = false) :
    Effect.send t.id ("whatsapp:" ++ t.whatsapp.getD "") (reminderMsg t)
        (env.sendOk t.id) ∈ (processTrip env now t).1 := by
  cases hq : env.parseIso t.departure_date with
  | none => simp [processTrip, h, hq]
  | some dep =>
    cases hu : env.updateOk t.id with
    | true => simp [processTrip, h, hq, hu]
    | false => simp [processTrip, h, hq, hu]

/-- The processing of one trip depends on the environment only through
the outcomes at that trip's id. -/
theorem processTrip_congr (env1 env2 : Env) (now : Int) (t : Trip)
    (hs : env1.sendOk t.id = env2.sendOk t.id)
    (hu : env1.updateOk t.id = env2.updateOk t.id)
    (hp : env1.parseIso = env2.parseIso) :
    processTrip env1 now t = processTrip env2 now t := by
  simp only [processTrip, hs, hu, hp]

/-- A trip with a falsy phone is skipped outright. -/
theorem processTrip_skip (env : Env) (now : Int) (t : Trip)
    (h : phoneFalsy t.whatsapp = true) :
    processTrip env now t = ([], none) := by
  simp [processTrip, h]

/-- A trip whose departure does not parse only gets its send attempt,
and no write-back. -/
theorem processTrip_badDate (env : Env) (now : Int) (t : Trip)
    (h : phoneFalsy t.whatsapp = false)
    (hq : env.parseIso t.departure_date = none) :
    processTrip env now t =
      ([Effect.send t.id ("whatsapp:" ++ t.whatsapp.getD "") (reminderMsg t)
          (env.sendOk t.id)], none) := by
  simp [processTrip, h, hq]

/-- A trip whose departure parses and whose update succeeds gets its
send attempt, its update effect, and the computed write-back. -/
theorem processTrip_full (env : Env) (now : Int) (t : Trip) (dep : Int)
    (h : phoneFalsy t.whatsapp = false)
    (hq : env.parseIso t.departure_date = some dep)
    (hu : env.updateOk t.id = true) :
    processTrip env now t =
      ([Effect.send t.id ("whatsapp:" ++ t.whatsapp.getD "") (reminderMsg t)
          (env.sendOk t.id),
        Effect.updateNext t.id (computeNextCheck dep now) true],
        some (computeNextCheck dep now)) := by
  simp [processTrip, h, hq, hu]

/-- The update by id does not change any row's id. -/
theorem applyUpdate_id_map (j : Nat) (v : Option Int) (l : List Trip) :
    (applyUpdate j v l).map Trip.id = l.map Trip.id := by
  unfold applyUpdate
  rw [List.map_map]
  apply List.map_congr_left
  intro u _
  by_cases h : u.id = j <;> simp [Function.comp, h]

/-- A member of the rows of an id carries that id. -/
theorem rowsWithId_id {j : Nat} {l : List Trip} {u : Trip}
    (h : u ∈ rowsWithId j l) : u.id = j := by
  have := (List.mem_filter.mp h).2
  simpa using this

/-- The update by id commutes with selecting the rows of an id. -/
theorem rowsWithId_applyUpdate (j i : Nat) (v : Option Int) (l : List Trip) :
    rowsWithId j (applyUpdate i v l) =
      (rowsWithId j l).map
        (fun u => if u.id == i then { u with next_check_at := v } else u) := by
  unfold rowsWithId applyUpdate
  rw [List.filter_map]
  congr 1
  apply List.filter_congr
  intro u _
  by_cases h : u.id = i <;> simp [Function.comp, h]

/-- An update for a different id leaves the rows of an id untouched. -/
theorem rowsWithId_applyUpdate_ne (j i : Nat) (v : Option Int) (l : List Trip)
    (h : i ≠ j) : rowsWithId j (applyUpdate i v l) = rowsWithId j l := by
  rw [rowsWithId_applyUpdate]
  have hpt : ∀ u ∈ rowsWithId j l,
      (if u.id == i then { u with next_check_at := v } else u) = u := by
    intro u hu
    have hju : u.id = j := rowsWithId_id hu
    simp [hju, Ne.symm h]
  rw [List.map_congr_left hpt, List.map_id']

/-- An update for the very id rewrites next_check_at on exactly the
rows of that id. -/
theorem rowsWithId_applyUpdate_eq (j : Nat) (v : Option Int) (l : List Trip) :
    rowsWithId j (applyUpdate j v l) =
      (rowsWithId j l).map (fun u => { u with next_check_at := v }) := by
  rw [rowsWithId_applyUpdate]
  apply List.map_congr_left
  intro u hu
  have hju : u.id = j := rowsWithId_id hu
  simp [hju]

/-- A store with no row of an id has no rows of that id. -/
theorem rowsWithId_eq_nil (j : Nat) (l : List Trip)
    (h : j ∉ l.map Trip.id) : rowsWithId j l = [] := by
  simp only [rowsWithId, List.filter_eq_nil_iff]
  intro u hu
  simp only [beq_iff_eq]
  intro hid
  exact h (hid ▸ List.mem_map_of_mem Trip.id hu)

/-- In a store whose ids are distinct, a row is determined by its id. -/
theorem id_unique (l : List Trip) (h : (l.map Trip.id).Nodup) :
    ∀ t ∈ l, ∀ u ∈ l, u.id = t.id → u = t := by
  induction l with
  | nil => simp
  | cons a l ih =>
    simp only [List.map_cons, List.nodup_cons] at h
    obtain ⟨ha, hnd⟩ := h
    intro t ht u hu hid
    rcases List.mem_cons.mp ht with rfl | ht'
    · rcases List.mem_cons.mp hu with rfl | hu'
      · rfl
      · exact absurd (hid ▸ List.mem_map_of_mem Trip.id hu') ha
    · rcases List.mem_cons.mp hu with rfl | hu'
      · exact absurd (hid.symm ▸ List.mem_map_of_mem Trip.id ht') ha
      · exact ih hnd t ht' u hu' hid

/-- In a store whose ids are distinct, the rows of a member's id are
exactly that member. -/
theorem rowsWithId_of_nodup (l : List Trip) (t : Trip)
    (h : (l.map Trip.id).Nodup) (ht : t ∈ l) : rowsWithId t.id l = [t] := by
  induction l with
  | nil => cases ht
  | cons a l ih =>
    simp only [List.map_cons, List.nodup_cons] at h
    obtain ⟨ha, hnd⟩ := h
    rcases List.mem_cons.mp ht with rfl | ht'
    · have h0 : rowsWithId t.id l = [] := rowsWithId_eq_nil _ _ ha
      show List.filter _ (t :: l) = [t]
      rw [List.filter_cons_of_pos (by simp)]
      exact congrArg (t :: ·) h0
    · have hne : a.id ≠ t.id := by
        intro he
        exact ha (he ▸ List.mem_map_of_mem Trip.id ht')
      show List.filter _ (a :: l) = [t]
      rw [List.filter_cons_of_neg (by simp [hne])]
      exact ih hnd ht'

/-- A step with no write-back leaves the store alone. -/
theorem wbStep_none (env : Env) (now : Int) (l : List Trip) (t : Trip)
    (hw : (processTrip env now t).2 = none) : wbStep env now l t = l := by
  unfold wbStep
  rw [hw]

/-- A step with a write-back is the update by the trip's id. -/
theorem wbStep_some (env : Env) (now : Int) (l : List Trip) (t : Trip)
    (v : Option Int) (hw : (processTrip env now t).2 = some v) :
    wbStep env now l t = applyUpdate t.id v l := by
  unfold wbStep
  rw [hw]

/-- When no due trip of a given id produces a write-back, the rows of
that id survive the whole loop unchanged. -/
theorem rows_foldl_nowrite (env : Env) (now : Int) (j : Nat) :
    ∀ (due l : List Trip),
      (∀ u ∈ due, u.id = j → (processTrip env now u).2 = none) →
      rowsWithId j (due.foldl (wbStep env now) l) = rowsWithId j l := by
  intro due
  induction due with
  | nil => intro l _; rfl
  | cons t rest ih =>
    intro l hh
    have hstep : rowsWithId j (wbStep env now l t) = rowsWithId j l := by
      rcases hw : (processTrip env now t).2 with _ | v
      · rw [wbStep_none env now l t hw]
      · have hne : t.id ≠ j := by
          intro he
          have h0 := hh t (List.mem_cons_self t rest) he
          rw [h0] at hw
          cases hw
        rw [wbStep_some env now l t v hw]
        exact rowsWithId_applyUpdate_ne j t.id v l hne
    rw [List.foldl_cons,
      ih (wbStep env now l t) (fun u hu => hh u (List.mem_cons_of_mem t hu))]
    exact hstep

/-- When a due list splits around the unique trip of a given id, the
rows of that id end up rewritten with exactly that trip's write-back. -/
theorem rows_foldl_writer (env : Env) (now : Int) (t : Trip) (v : Option Int)
    (l1 l2 l : List Trip)
    (h1 : ∀ u ∈ l1, u.id ≠ t.id) (h2 : ∀ u ∈ l2, u.id ≠ t.id)
    (hw : (processTrip env now t).2 = some v) :
    rowsWithId t.id ((l1 ++ t :: l2).foldl (wbStep env now) l) =
      (rowsWithId t.id l).map (fun u => { u with next_check_at := v }) := by
  rw [List.foldl_append, List.foldl_cons]
  have e1 : rowsWithId t.id (l1.foldl (wbStep env now) l) = rowsWithId t.id l :=
    rows_foldl_nowrite env now t.id l1 l (fun u hu he => absurd he (h1 u hu))
  rw [rows_foldl_nowrite env now t.id l2 _ (fun u hu he => absurd he (h2 u hu))]
  rw [wbStep_some env now _ t v hw, rowsWithId_applyUpdate_eq, e1]

/-- Fault isolation on the store: two batch runs whose environments
agree on one trip id leave identical rows for that id, whatever the
environments do to the other trips. -/
theorem rows_foldl_congr (env1 env2 : Env) (now : Int) (j : Nat)
    (hp : env1.parseIso = env2.parseIso)
    (hs : env1.sendOk j = env2.sendOk j)
    (hu : env1.updateOk j = env2.updateOk j) :
    ∀ (due la lb : List Trip), rowsWithId j la = rowsWithId j lb →
      rowsWithId j (due.foldl (wbStep env1 now) la) =
        rowsWithId j (due.foldl (wbStep env2 now) lb) := by
  intro due
  induction due with
  | nil => intro la lb h; exact h
  | cons t rest ih =>
    intro la lb h
    rw [List.foldl_cons, List.foldl_cons]
    apply ih
    by_cases ht : t.id = j
    · have hpe : processTrip env1 now t = processTrip env2 now t :=
        processTrip_congr env1 env2 now t (by rw [ht]; exact hs)
          (by rw [ht]; exact hu) hp
      rcases hw : (processTrip env2 now t).2 with _ | v
      · rw [wbStep_none env1 now la t (by rw [hpe]; exact hw),
          wbStep_none env2 now lb t hw]
        exact h
      · rw [wbStep_some env1 now la t v (by rw [hpe]; exact hw),
          wbStep_some env2 now lb t v hw, ht,
          rowsWithId_applyUpdate_eq, rowsWithId_applyUpdate_eq, h]
    · rcases hw1 : (processTrip env1 now t).2 with _ | v1 <;>
        rcases hw2 : (processTrip env2 now t).2 with _ | v2
      · rw [wbStep_none env1 now la t hw1, wbStep_none env2 now lb t hw2]
        exact h
      · rw [wbStep_none env1 now la t hw1, wbStep_some env2 now lb t v2 hw2,
          rowsWithId_applyUpdate_ne j t.id v2 lb ht]
        exact h
      · rw [wbStep_some env1 now la t v1 hw1, wbStep_none env2 now lb t hw2,
          rowsWithId_applyUpdate_ne j t.id v1 la ht]
        exact h
      · rw [wbStep_some env1 now la t v1 hw1, wbStep_some env2 now lb t v2 hw2,
          rowsWithId_applyUpdate_ne j t.id v1 la ht,
          rowsWithId_applyUpdate_ne j t.id v2 lb ht]
        exact h

/-- The effects a trip contributes for a foreign id are none. -/
theorem effectsFor_processTrip_ne (env : Env) (now : Int) (t : Trip) (j : Nat)
    (h : t.id ≠ j) : effectsFor j (processTrip env now t).1 = [] := by
  unfold effectsFor
  rw [List.filter_eq_nil_iff]
  intro e he
  have h0 := processTrip_effIds env now t e he
  simp [h0, h]

/-- The effects a trip contributes for its own id are all of them. -/
theorem effectsFor_processTrip_self (env : Env) (now : Int) (t : Trip) :
    effectsFor t.id (processTrip env now t).1 = (processTrip env now t).1 := by
  unfold effectsFor
  rw [List.filter_eq_self]
  intro e he
  simp [processTrip_effIds env now t e he]

/-- An effect emitted while processing a due trip is an effect of the
whole loop. -/
theorem mem_runDue_effects (env : Env) (now : Int) (due l : List Trip)
    (t : Trip) (ht : t ∈ due) (e : Effect)
    (he : e ∈ (processTrip env now t).1) : e ∈ (runDue env now due l).2 := by
  rw [runDue_effects]
  rw [List.mem_flatten]
  exact ⟨(processTrip env now t).1,
    List.mem_map_of_mem (fun u => (processTrip env now u).1) ht, he⟩

/-- When every due trip of a given id contributes no effect, the loop
emits no effect for that id. -/
theorem effectsFor_runDue_nil (env : Env) (now : Int) (j : Nat)
    (due l : List Trip)
    (h : ∀ u ∈ due, u.id = j → (processTrip env now u).1 = []) :
    effectsFor j (runDue env now due l).2 = [] := by
  rw [runDue_effects]
  unfold effectsFor
  rw [List.filter_eq_nil_iff]
  intro e he
  rw [List.mem_flatten] at he
  obtain ⟨s, hs, hes⟩ := he
  obtain ⟨u, hu, rfl⟩ := List.mem_map.mp hs
  by_cases hid : u.id = j
  · rw [h u hu hid] at hes
    cases hes
  · have h0 := processTrip_effIds env now u e hes
    simp [h0, hid]

/-- When a due list splits around the unique trip of a given id, the
loop's effects for that id are exactly that trip's effects. -/
theorem effectsFor_runDue_split (env : Env) (now : Int) (t : Trip)
    (l1 l2 l : List Trip)
    (h1 : ∀ u ∈ l1, u.id ≠ t.id) (h2 : ∀ u ∈ l2, u.id ≠ t.id) :
    effectsFor t.id (runDue env now (l1 ++ t :: l2) l).2 =
      (processTrip env now t).1 := by
  rw [runDue_effects, List.map_append, List.flatten_append, List.map_cons,
    List.flatten_cons]
  unfold effectsFor
  rw [List.filter_append, List.filter_append]
  have e1 : List.filter (fun e => effId e == t.id)
      ((l1.map fun u => (processTrip env now u).1).flatten) = [] := by
    rw [List.filter_eq_nil_iff]
    intro e he
    rw [List.mem_flatten] at he
    obtain ⟨s, hs, hes⟩ := he
    obtain ⟨u, hu, rfl⟩ := List.mem_map.mp hs
    have h0 := processTrip_effIds env now u e hes
    simp [h0, h1 u hu]
  have e2 : List.filter (fun e => effId e == t.id)
      ((l2.map fun u => (processTrip env now u).1).flatten) = [] := by
    rw [List.filter_eq_nil_iff]
    intro e he
    rw [List.mem_flatten] at he
    obtain ⟨s, hs, hes⟩ := he
    obtain ⟨u, hu, rfl⟩ := List.mem_map.mp hs
    have h0 := processTrip_effIds env now u e hes
    simp [h0, h2 u hu]
  have e3 : List.filter (fun e => effId e == t.id) (processTrip env now t).1 =
      (processTrip env now t).1 := effectsFor_processTrip_self env now t
  rw [e1, e2, e3, List.nil_append, List.append_nil]

/-- Fault isolation on the effects: two loop runs whose environments
agree on one trip id emit identical effects for that id. -/
theorem effectsFor_runDue_congr (env1 env2 : Env) (now : Int) (j : Nat)
    (hp : env1.parseIso = env2.parseIso)
    (hs : env1.sendOk j = env2.sendOk j)
    (hu : env1.updateOk j = env2.updateOk j)
    (due la lb : List Trip) :
    effectsFor j (runDue env1 now due la).2 =
      effectsFor j (runDue env2 now due lb).2 := by
  rw [runDue_effects, runDue_effects]
  induction due with
  | nil => rfl
  | cons t rest ih =>
    rw [List.map_cons, List.map_cons, List.flatten_cons, List.flatten_cons]
    unfold effectsFor at ih ⊢
    rw [List.filter_append, List.filter_append, ih]
    congr 1
    by_cases ht : t.id = j
    · rw [processTrip_congr env1 env2 now t (by rw [ht]; exact hs)
        (by rw [ht]; exact hu) hp]
    · have d1 := effectsFor_processTrip_ne env1 now t j ht
      have d2 := effectsFor_processTrip_ne env2 now t j ht
      unfold effectsFor at d1 d2
      rw [d1, d2]

/-- Around any member of a store with distinct ids, the store splits
into a left and a right part free of that member's id. -/
theorem exists_split_of_nodup (l : List Trip) (t : Trip)
    (h : (l.map Trip.id).Nodup) (ht : t ∈ l) :
    ∃ l1 l2, l = l1 ++ t :: l2 ∧ (∀ u ∈ l1, u.id ≠ t.id) ∧
      ∀ u ∈ l2, u.id ≠ t.id := by
  obtain ⟨l1, l2, rfl⟩ := List.append_of_mem ht
  refine ⟨l1, l2, rfl, ?_, ?_⟩
  · intro u hu he
    rw [List.map_append, List.map_cons, List.nodup_append] at h
    exact h.2.2 (he ▸ List.mem_map_of_mem Trip.id hu) (List.mem_cons_self _ _)
  · intro u hu he
    rw [List.map_append, List.map_cons, List.nodup_append] at h
    have h3 := h.2.1
    rw [List.nodup_cons] at h3
    exact h3.1 (he ▸ List.mem_map_of_mem Trip.id hu)

/-- Distinctness of trip ids survives the due-selection filter. -/
theorem dueTrips_id_nodup (now : Int) (db : DBState)
    (h : (db.trips.map Trip.id).Nodup) :
    ((dueTrips now db).map Trip.id).Nodup :=
  List.Nodup.sublist (List.Sublist.map Trip.id (List.filter_sublist db.trips)) h

/-- Membership in the due selection, spelled out. -/
theorem mem_dueTrips (now : Int) (db : DBState) (t : Trip) :
    t ∈ dueTrips now db ↔
      t ∈ db.trips ∧ ∃ v, t.next_check_at = some v ∧ v ≤ now := by
  unfold dueTrips
  rw [List.mem_filter]
  constructor
  · rintro ⟨hm, hd⟩
    refine ⟨hm, ?_⟩
    unfold isDue at hd
    rcases hv : t.next_check_at with _ | v
    · rw [hv] at hd; cases hd
    · rw [hv] at hd
      exact ⟨v, rfl, by simpa using hd⟩
  · rintro ⟨hm, v, hv, hle⟩
    refine ⟨hm, ?_⟩
    unfold isDue
    rw [hv]
    simpa using hle

/-- An effect emitted while processing a due trip is an effect of the
whole batch pass. -/
theorem mem_tick_effects (env : Env) (now : Int) (db : DBState) (t : Trip)
    (hsel : env.selectOk = true) (ht : t ∈ dueTrips now db) (e : Effect)
    (he : e ∈ (processTrip env now t).1) :
    e ∈ (check_and_send_reminders env now db).2 := by
  simp only [check_and_send_reminders, hsel, if_true]
  exact mem_runDue_effects env now (dueTrips now db) db.trips t ht e he

/-! ### Claims -/

/-- Claim C1, counterexample: the next-check computation does not follow
the five-tier backoff table.  With now = 0 and departure 50 hours away
(180000 s), the table demands now + 10h (36000); the code computes
departure − 3h (169200).  With departure 8 hours away the table demands
now + 3h (10800); the code computes now + 5h (18000).  With departure 2
hours or 30 minutes away the table demands now + 15min or now + 5min;
the code computes null. -/
theorem C1_cx :
    computeNextCheck 180000 0 = some 169200 ∧
      computeNextCheck 180000 0 ≠ some 36000 ∧
      computeNextCheck 28800 0 = some 18000 ∧
      computeNextCheck 28800 0 ≠ some 10800 ∧
      computeNextCheck 7200 0 = none ∧
      computeNextCheck 1800 0 = none := by
  decide

/-- Claim C1, amended: the scheduler's next-check computation follows a
two-branch rule, not the tiered table: for every due trip with a truthy
phone, a parsable departure and a successful update call, in a store
with distinct ids, the batch pass leaves the trip's next_check_at equal
to departure − 3h when more than three hours remain, and null
otherwise. -/
theorem C1_thm (env : Env) (now dep : Int) (db : DBState) (t : Trip)
    (hsel : env.selectOk = true)
    (hids : (db.trips.map Trip.id).Nodup)
    (hmem : t ∈ db.trips) (hdue : isDue now t = true)
    (hph : phoneFalsy t.whatsapp = false)
    (hparse : env.parseIso t.departure_date = some dep)
    (hupd : env.updateOk t.id = true) :
    rowsWithId t.id (check_and_send_reminders env now db).1.trips =
      [{ t with next_check_at :=
          if dep - now > 10800 then some (dep - 10800) else none }] := by
  have hdueT : t ∈ dueTrips now db := List.mem_filter.mpr ⟨hmem, hdue⟩
  have hnd := dueTrips_id_nodup now db hids
  obtain ⟨l1, l2, hsplit, h1, h2⟩ :=
    exists_split_of_nodup (dueTrips now db) t hnd hdueT
  have hw : (processTrip env now t).2 = some (computeNextCheck dep now) := by
    rw [processTrip_full env now t dep hph hparse hupd]
  simp only [check_and_send_reminders, hsel, if_true]
  rw [runDue_trips, hsplit,
    rows_foldl_writer env now t (computeNextCheck dep now) l1 l2 db.trips h1 h2 hw,
    rowsWithId_of_nodup db.trips t hids hmem]
  rfl

/-- Claim C1, witness: departure 1772366400 with now = 0 is more than
three hours away, so the concrete batch pass writes departure − 3h. -/
theorem C1_wit :
    rowsWithId 1 (check_and_send_reminders envAllOk 0 ⟨[tripAna]⟩).1.trips =
      [{ tripAna with next_check_at := some 1772355600 }] :=
  (C1_thm envAllOk 0 1772366400 ⟨[tripAna]⟩ tripAna rfl (by decide) (by decide)
    (by decide) (by decide) (by decide) (by decide)).trans (by decide)

/-- Claim C2, counterexample: a trip whose next_check_at is null is not
selected by the single lte query, so — with a valid phone and parsable
departure — the batch pass emits nothing for it and leaves the store
unchanged, while the claim demands it be due and processed. -/
theorem C2_cx :
    tripNullCheck.next_check_at = none ∧
      phoneFalsy tripNullCheck.whatsapp = false ∧
      check_and_send_reminders envAllOk 0 ⟨[tripNullCheck]⟩ =
        (⟨[tripNullCheck]⟩, []) := by
  decide

/-- Claim C2, amended: the batch pass selects as due exactly the trips
whose next_check_at is non-null and at most now, through the single lte
query (trips with null next_check_at are never selected); each selected
trip in a store with distinct ids is processed exactly once per tick:
the pass's effects for its id are precisely its own pipeline's
effects. -/
theorem C2_thm (env : Env) (now : Int) (db : DBState)
    (hsel : env.selectOk = true) (hids : (db.trips.map Trip.id).Nodup) :
    (∀ t : Trip, t ∈ dueTrips now db ↔
        t ∈ db.trips ∧ ∃ v, t.next_check_at = some v ∧ v ≤ now) ∧
      ∀ t ∈ dueTrips now db,
        effectsFor t.id (check_and_send_reminders env now db).2 =
          (processTrip env now t).1 := by
  constructor
  · intro t
    exact mem_dueTrips now db t
  · intro t ht
    have hnd := dueTrips_id_nodup now db hids
    obtain ⟨l1, l2, hsplit, h1, h2⟩ :=
      exists_split_of_nodup (dueTrips now db) t hnd ht
    simp only [check_and_send_reminders, hsel, if_true]
    rw [hsplit]
    exact effectsFor_runDue_split env now t l1 l2 db.trips h1 h2

/-- Claim C2, witness: the single due trip of the concrete store is
selected and processed exactly once. -/
theorem C2_wit :
    (tripAna ∈ dueTrips 0 ⟨[tripAna]⟩ ↔
        tripAna ∈ (⟨[tripAna]⟩ : DBState).trips ∧
          ∃ v, tripAna.next_check_at = some v ∧ v ≤ 0) ∧
      effectsFor 1 (check_and_send_reminders envAllOk 0 ⟨[tripAna]⟩).2 =
        (processTrip envAllOk 0 tripAna).1 :=
  ⟨(C2_thm envAllOk 0 ⟨[tripAna]⟩ rfl (by decide)).1 tripAna,
    (C2_thm envAllOk 0 ⟨[tripAna]⟩ rfl (by decide)).2 tripAna (by decide)⟩

/-- Claim C6, counterexample: with departure equal to now (both 0) the
code's next-check output is null, which is neither strictly after now
nor equal to departure − 40h with that time in the future; the claim
asserts one of the two holds for every input. -/
theorem C6_cx :
    computeNextCheck 0 0 = none ∧
      ¬(∃ u, computeNextCheck 0 0 = some u ∧ 0 < u) ∧
      ¬(computeNextCheck 0 0 = some (0 - 144000) ∧ (0 : Int) < 0 - 144000) := by
  have h0 : computeNextCheck 0 0 = none := by decide
  refine ⟨h0, ?_, ?_⟩
  · rintro ⟨u, hu, _⟩
    rw [h0] at hu
    cases hu
  · rintro ⟨hu, _⟩
    rw [h0] at hu
    cases hu

/-- Claim C6, amended: the next-check computation is deterministic, and
its output is null exactly when at most three hours remain; when more
than three hours remain it equals departure − 3h, which is strictly
after now. -/
theorem C6_thm (dep now : Int) :
    computeNextCheck dep now = computeNextCheck dep now ∧
      (dep - now ≤ 10800 → computeNextCheck dep now = none) ∧
      (10800 < dep - now →
        computeNextCheck dep now = some (dep - 10800) ∧ now < dep - 10800) := by
  refine ⟨rfl, ?_, ?_⟩
  · intro h
    unfold computeNextCheck
    rw [if_neg (by omega)]
  · intro h
    unfold computeNextCheck
    rw [if_pos (by omega)]
    exact ⟨rfl, by omega⟩

/-- Claim C6, witness: a departure 50 hours ahead of now yields
departure − 3h, strictly after now. -/
theorem C6_wit :
    computeNextCheck 180000 0 = some (180000 - 10800) ∧
      (0 : Int) < 180000 - 10800 :=
  (C6_thm 180000 0).2.2 (by norm_num)

/-- Claim C7, confirmed: when the selection query fails, the batch pass
returns at once with the store unchanged and no effect emitted; no
exception propagates to the caller. -/
theorem C7_thm (env : Env) (now : Int) (db : DBState)
    (hsel : env.selectOk = false) :
    check_and_send_reminders env now db = (db, []) := by
  simp [check_and_send_reminders, hsel]

/-- Claim C7, witness: a concrete failing selection leaves the concrete
store untouched. -/
theorem C7_wit :
    check_and_send_reminders envSelFail 0 ⟨[tripAna]⟩ = (⟨[tripAna]⟩, []) :=
  C7_thm envSelFail 0 ⟨[tripAna]⟩ rfl

/-- Claim C3, counterexample: the batch pass performs no status fetch
and no change detection.  For a concrete due trip whose recorded status
is A — so that under any reading the fetched and previous statuses
cannot differ, there being no fetch at all — the pass still emits one
send and zero FlightEvent appends, while the claim demands notification
and append counts be equal (both zero here). -/
theorem C3_cx :
    tripAna.status = "A" ∧
      (check_and_send_reminders envAllOk 0 ⟨[tripAna]⟩).2.countP isSendEff = 1 ∧
      (check_and_send_reminders envAllOk 0 ⟨[tripAna]⟩).2.countP isAppendEff = 0 := by
  decide

/-- Claim C3, amended: the batch pass performs no status fetch and no
change detection: it never appends any FlightEvent, and it attempts the
reminder send for every due trip with a truthy phone unconditionally,
regardless of the trip's recorded status. -/
theorem C3_thm (env : Env) (now : Int) (db : DBState) :
    (∀ j s, Effect.appendEvent j s ∉ (check_and_send_reminders env now db).2) ∧
      (env.selectOk = true →
        ∀ t ∈ dueTrips now db, phoneFalsy t.whatsapp = false →
          Effect.send t.id ("whatsapp:" ++ t.whatsapp.getD "") (reminderMsg t)
              (env.sendOk t.id) ∈ (check_and_send_reminders env now db).2) := by
  constructor
  · intro j s hmem
    by_cases hsel : env.selectOk = true
    · simp only [check_and_send_reminders, hsel, if_true] at hmem
      rw [runDue_effects, List.mem_flatten] at hmem
      obtain ⟨l0, hl0, hel⟩ := hmem
      obtain ⟨u, hu, rfl⟩ := List.mem_map.mp hl0
      have h0 := processTrip_no_append env now u _ hel
      simp [isAppendEff] at h0
    · have hsf : env.selectOk = false := by simpa using hsel
      simp [check_and_send_reminders, hsf] at hmem
  · intro hsel t ht hph
    exact mem_tick_effects env now db t hsel ht _
      (processTrip_send_mem env now t hph)

/-- Claim C3, witness: in the concrete run no FlightEvent for the due
trip is ever appended, yet its send is attempted. -/
theorem C3_wit :
    Effect.appendEvent 1 "B" ∉
        (check_and_send_reminders envAllOk 0 ⟨[tripAna]⟩).2 ∧
      Effect.send 1 ("whatsapp:" ++ "+5491111111111") (reminderMsg tripAna)
          true ∈ (check_and_send_reminders envAllOk 0 ⟨[tripAna]⟩).2 :=
  ⟨(C3_thm envAllOk 0 ⟨[tripAna]⟩).1 1 "B",
    (C3_thm envAllOk 0 ⟨[tripAna]⟩).2 rfl tripAna (by decide) (by decide)⟩

/-- Claim C4, counterexample: the only per-trip failure branch that
skips the rest of the pipeline — an unparsable departure_date — leaves
that trip's next_check_at exactly as it was (here some 0), not about
five minutes ahead as the claim demands. -/
theorem C4_cx :
    parseFix tripBadDate.departure_date = none ∧
      (check_and_send_reminders envAllOk 0 ⟨[tripBadDate]⟩).1.trips =
        [tripBadDate] ∧
      tripBadDate.next_check_at = some 0 ∧
      some 0 ≠ some ((0 : Int) + 300) := by
  decide

/-- Claim C4, amended: the scheduler performs no status fetch; its only
skip path is a departure_date that fails to parse, in which case it
does not raise, attempts only the send for that trip, leaves that
trip's next_check_at unchanged (no five-minute fallback), and continues
processing the other due trips. -/
theorem C4_thm (env : Env) (now : Int) (db : DBState) (t : Trip)
    (hsel : env.selectOk = true) (hids : (db.trips.map Trip.id).Nodup)
    (hmem : t ∈ db.trips) (hdue : isDue now t = true)
    (hph : phoneFalsy t.whatsapp = false)
    (hparse : env.parseIso t.departure_date = none) :
    effectsFor t.id (check_and_send_reminders env now db).2 =
        [Effect.send t.id ("whatsapp:" ++ t.whatsapp.getD "") (reminderMsg t)
          (env.sendOk t.id)] ∧
      rowsWithId t.id (check_and_send_reminders env now db).1.trips =
        rowsWithId t.id db.trips ∧
      ∀ u ∈ dueTrips now db, phoneFalsy u.whatsapp = false →
        Effect.send u.id ("whatsapp:" ++ u.whatsapp.getD "") (reminderMsg u)
            (env.sendOk u.id) ∈ (check_and_send_reminders env now db).2 := by
  have hdueT : t ∈ dueTrips now db := List.mem_filter.mpr ⟨hmem, hdue⟩
  have hnd := dueTrips_id_nodup now db hids
  obtain ⟨l1, l2, hsplit, h1, h2⟩ :=
    exists_split_of_nodup (dueTrips now db) t hnd hdueT
  have hpt := processTrip_badDate env now t hph hparse
  refine ⟨?_, ?_, ?_⟩
  · simp only [check_and_send_reminders, hsel, if_true]
    rw [hsplit, effectsFor_runDue_split env now t l1 l2 db.trips h1 h2, hpt]
  · simp only [check_and_send_reminders, hsel, if_true]
    rw [runDue_trips]
    apply rows_foldl_nowrite
    intro u hu hid
    have hut : u = t :=
      id_unique db.trips hids t hmem u (List.mem_of_mem_filter hu) hid
    rw [hut, hpt]
  · intro u hu hphu
    exact mem_tick_effects env now db u hsel hu _
      (processTrip_send_mem env now u hphu)

/-- Claim C4, witness: in a concrete two-trip batch the bad-date trip
keeps its rows unchanged and only its send is attempted, while the
healthy trip's send still happens. -/
theorem C4_wit :
    effectsFor 4
        (check_and_send_reminders envAllOk 0 ⟨[tripBadDate, tripAna]⟩).2 =
        [Effect.send 4 ("whatsapp:" ++ "+12025550123") (reminderMsg tripBadDate)
          true] ∧
      rowsWithId 4
          (check_and_send_reminders envAllOk 0 ⟨[tripBadDate, tripAna]⟩).1.trips =
        rowsWithId 4 (⟨[tripBadDate, tripAna]⟩ : DBState).trips ∧
      Effect.send 1 ("whatsapp:" ++ "+5491111111111") (reminderMsg tripAna)
          true ∈ (check_and_send_reminders envAllOk 0 ⟨[tripBadDate, tripAna]⟩).2 := by
  have h := C4_thm envAllOk 0 ⟨[tripBadDate, tripAna]⟩ tripBadDate rfl (by decide)
    (by decide) (by decide) (by decide) (by decide)
  exact ⟨h.1, h.2.1, h.2.2 tripAna (by decide) (by decide)⟩

/-- Claim C5, confirmed as fault isolation: two batch runs whose
environments agree on one trip id — however the Twilio sends, date
parses and store updates of the other trips fail in one and succeed in
the other — leave identical rows and emit identical effects for that
id, and neither run aborts. -/
theorem C5_thm (env1 env2 : Env) (now : Int) (db : DBState) (j : Nat)
    (hsel : env1.selectOk = env2.selectOk)
    (hp : env1.parseIso = env2.parseIso)
    (hs : env1.sendOk j = env2.sendOk j)
    (hu : env1.updateOk j = env2.updateOk j) :
    rowsWithId j (check_and_send_reminders env1 now db).1.trips =
        rowsWithId j (check_and_send_reminders env2 now db).1.trips ∧
      effectsFor j (check_and_send_reminders env1 now db).2 =
        effectsFor j (check_and_send_reminders env2 now db).2 := by
  by_cases hse : env1.selectOk = true
  · have hse2 : env2.selectOk = true := hsel.symm.trans hse
    constructor
    · simp only [check_and_send_reminders, hse, hse2, if_true]
      rw [runDue_trips, runDue_trips]
      exact rows_foldl_congr env1 env2 now j hp hs hu (dueTrips now db)
        db.trips db.trips rfl
    · simp only [check_and_send_reminders, hse, hse2, if_true]
      exact effectsFor_runDue_congr env1 env2 now j hp hs hu (dueTrips now db)
        db.trips db.trips
  · have hse1 : env1.selectOk = false := by simpa using hse
    have hse2 : env2.selectOk = false := by rw [← hsel]; exact hse1
    simp [check_and_send_reminders, hse1, hse2]

/-- Claim C5, witness: whether every external call succeeds or the
calls for trip 4 all raise, trip 1 of the concrete batch ends with the
same rows and the same effects. -/
theorem C5_wit :
    rowsWithId 1
        (check_and_send_reminders envAllOk 0 ⟨[tripAna, tripBadDate]⟩).1.trips =
        rowsWithId 1
          (check_and_send_reminders envFailAt4 0 ⟨[tripAna, tripBadDate]⟩).1.trips ∧
      effectsFor 1
          (check_and_send_reminders envAllOk 0 ⟨[tripAna, tripBadDate]⟩).2 =
        effectsFor 1
          (check_and_send_reminders envFailAt4 0 ⟨[tripAna, tripBadDate]⟩).2 :=
  C5_thm envAllOk envFailAt4 0 ⟨[tripAna, tripBadDate]⟩ 1 rfl rfl (by decide)
    (by decide)

/-- Claim C8, confirmed: a due trip whose whatsapp column is null or
empty is skipped entirely: no effect is emitted for it, its rows keep
their next_check_at, and it is selected as due again at every later
instant. -/
theorem C8_thm (env : Env) (now : Int) (db : DBState) (t : Trip)
    (hsel : env.selectOk = true) (hids : (db.trips.map Trip.id).Nodup)
    (hmem : t ∈ db.trips) (hdue : isDue now t = true)
    (hph : phoneFalsy t.whatsapp = true) :
    effectsFor t.id (check_and_send_reminders env now db).2 = [] ∧
      rowsWithId t.id (check_and_send_reminders env now db).1.trips =
        rowsWithId t.id db.trips ∧
      ∀ now2 : Int, now ≤ now2 →
        t ∈ dueTrips now2 (check_and_send_reminders env now db).1 := by
  have hskip : ∀ u ∈ dueTrips now db, u.id = t.id →
      processTrip env now u = ([], none) := by
    intro u hu hid
    have hut : u = t :=
      id_unique db.trips hids t hmem u (List.mem_of_mem_filter hu) hid
    rw [hut]
    exact processTrip_skip env now t hph
  have hrows : rowsWithId t.id (check_and_send_reminders env now db).1.trips =
      rowsWithId t.id db.trips := by
    simp only [check_and_send_reminders, hsel, if_true]
    rw [runDue_trips]
    apply rows_foldl_nowrite
    intro u hu hid
    rw [hskip u hu hid]
  refine ⟨?_, hrows, ?_⟩
  · simp only [check_and_send_reminders, hsel, if_true]
    apply effectsFor_runDue_nil
    intro u hu hid
    rw [hskip u hu hid]
  · intro now2 h2
    have htmem : t ∈ (check_and_send_reminders env now db).1.trips := by
      have h3 : t ∈ rowsWithId t.id db.trips :=
        List.mem_filter.mpr ⟨hmem, by simp⟩
      rw [← hrows] at h3
      exact List.mem_of_mem_filter h3
    rcases hv : t.next_check_at with _ | v
    · unfold isDue at hdue
      rw [hv] at hdue
      cases hdue
    · have hle : v ≤ now := by
        unfold isDue at hdue
        rw [hv] at hdue
        simpa using hdue
      apply List.mem_filter.mpr
      refine ⟨htmem, ?_⟩
      unfold isDue
      rw [hv]
      simp only [decide_eq_true_eq]
      omega

/-- Claim C8, witness: the concrete phone-less due trip is skipped,
keeps its rows, and is still due 100 seconds later. -/
theorem C8_wit :
    effectsFor 3
        (check_and_send_reminders envAllOk 0 ⟨[tripNoPhone, tripAna]⟩).2 = [] ∧
      rowsWithId 3
          (check_and_send_reminders envAllOk 0 ⟨[tripNoPhone, tripAna]⟩).1.trips =
        rowsWithId 3 (⟨[tripNoPhone, tripAna]⟩ : DBState).trips ∧
      tripNoPhone ∈
        dueTrips 100 (check_and_send_reminders envAllOk 0 ⟨[tripNoPhone, tripAna]⟩).1 := by
  have h := C8_thm envAllOk 0 ⟨[tripNoPhone, tripAna]⟩ tripNoPhone rfl (by decide)
    (by decide) (by decide) (by decide)
  exact ⟨h.1, h.2.1, h.2.2 100 (by norm_num)⟩

/-- Claim C9, counterexample: a due trip whose departure_date does not
parse but whose whatsapp column is null gets no reminder at all — the
phone guard skips it before the send — while the claim asserts every
due trip with an unparsable departure still gets the reminder sent. -/
theorem C9_cx :
    parseFix tripNoPhone.departure_date = none ∧
      isDue 0 tripNoPhone = true ∧
      (check_and_send_reminders envAllOk 0 ⟨[tripNoPhone]⟩).2 = [] := by
  decide

/-- Claim C9, amended: for every due trip with a truthy whatsapp phone
whose departure_date fails to parse, the batch pass attempts the
reminder send, skips the next_check_at update leaving the trip's rows
unchanged, so the trip is due again at every later instant and the same
reminder is attempted again by any later pass. -/
theorem C9_thm (env : Env) (now : Int) (db : DBState) (t : Trip)
    (hsel : env.selectOk = true) (hids : (db.trips.map Trip.id).Nodup)
    (hmem : t ∈ db.trips) (hdue : isDue now t = true)
    (hph : phoneFalsy t.whatsapp = false)
    (hparse : env.parseIso t.departure_date = none) :
    effectsFor t.id (check_and_send_reminders env now db).2 =
        [Effect.send t.id ("whatsapp:" ++ t.whatsapp.getD "") (reminderMsg t)
          (env.sendOk t.id)] ∧
      rowsWithId t.id (check_and_send_reminders env now db).1.trips =
        rowsWithId t.id db.trips ∧
      (∀ now2 : Int, now ≤ now2 →
        t ∈ dueTrips now2 (check_and_send_reminders env now db).1) ∧
      ∀ (env2 : Env) (now2 : Int), env2.selectOk = true → now ≤ now2 →
        Effect.send t.id ("whatsapp:" ++ t.whatsapp.getD "") (reminderMsg t)
            (env2.sendOk t.id) ∈
          (check_and_send_reminders env2 now2
            (check_and_send_reminders env now db).1).2 := by
  have hdueT : t ∈ dueTrips now db := List.mem_filter.mpr ⟨hmem, hdue⟩
  have hnd := dueTrips_id_nodup now db hids
  obtain ⟨l1, l2, hsplit, h1, h2⟩ :=
    exists_split_of_nodup (dueTrips now db) t hnd hdueT
  have hpt := processTrip_badDate env now t hph hparse
  have hrows : rowsWithId t.id (check_and_send_reminders env now db).1.trips =
      rowsWithId t.id db.trips := by
    simp only [check_and_send_reminders, hsel, if_true]
    rw [runDue_trips]
    apply rows_foldl_nowrite
    intro u hu hid
    have hut : u = t :=
      id_unique db.trips hids t hmem u (List.mem_of_mem_filter hu) hid
    rw [hut, hpt]
  have hstill : ∀ now2 : Int, now ≤ now2 →
      t ∈ dueTrips now2 (check_and_send_reminders env now db).1 := by
    intro now2 hn2
    have htmem : t ∈ (check_and_send_reminders env now db).1.trips := by
      have h3 : t ∈ rowsWithId t.id db.trips :=
        List.mem_filter.mpr ⟨hmem, by simp⟩
      rw [← hrows] at h3
      exact List.mem_of_mem_filter h3
    rcases hv : t.next_check_at with _ | v
    · unfold isDue at hdue
      rw [hv] at hdue
      cases hdue
    · have hle : v ≤ now := by
        unfold isDue at hdue
        rw [hv] at hdue
        simpa using hdue
      apply List.mem_filter.mpr
      refine ⟨htmem, ?_⟩
      unfold isDue
      rw [hv]
      simp only [decide_eq_true_eq]
      omega
  refine ⟨?_, hrows, hstill, ?_⟩
  · simp only [check_and_send_reminders, hsel, if_true]
    rw [hsplit, effectsFor_runDue_split env now t l1 l2 db.trips h1 h2, hpt]
  · intro env2 now2 hsel2 hn2
    exact mem_tick_effects env2 now2 _ t hsel2 (hstill now2 hn2) _
      (processTrip_send_mem env2 now2 t hph)

/-- Claim C9, witness: the concrete bad-date trip gets its send
attempted, keeps its rows, is still due 50 seconds later, and a later
pass attempts the same reminder again. -/
theorem C9_wit :
    effectsFor 4 (check_and_send_reminders envAllOk 0 ⟨[tripBadDate]⟩).2 =
        [Effect.send 4 ("whatsapp:" ++ "+12025550123") (reminderMsg tripBadDate)
          true] ∧
      rowsWithId 4 (check_and_send_reminders envAllOk 0 ⟨[tripBadDate]⟩).1.trips =
        rowsWithId 4 (⟨[tripBadDate]⟩ : DBState).trips ∧
      tripBadDate ∈
        dueTrips 50 (check_and_send_reminders envAllOk 0 ⟨[tripBadDate]⟩).1 ∧
      Effect.send 4 ("whatsapp:" ++ "+12025550123") (reminderMsg tripBadDate)
          false ∈
        (check_and_send_reminders envFailAt4 50
          (check_and_send_reminders envAllOk 0 ⟨[tripBadDate]⟩).1).2 := by
  have h := C9_thm envAllOk 0 ⟨[tripBadDate]⟩ tripBadDate rfl (by decide)
    (by decide) (by decide) (by decide) (by decide)
  exact ⟨h.1, h.2.1, h.2.2.1 50 (by norm_num),
    h.2.2.2 envFailAt4 50 rfl (by norm_num)⟩

/-- Claim C10, confirmed: whenever detect_flight_pattern recognises a
flight number, is_research_query returns false on the same string: a
bare flight number is never classified as a research query. -/
theorem C10_thm (text s : String)
    (h : detect_flight_pattern text = some s) :
    is_research_query text = false := by
  simp [is_research_query, h]

/-- Claim C10, witness: the bare flight number AR1234 is detected and
is not classified as research. -/
theorem C10_wit :
    detect_flight_pattern "AR1234" = some "AR1234" ∧
      is_research_query "AR1234" = false :=
  ⟨by decide, C10_thm "AR1234" "AR1234" (by decide)⟩

end TravelCopilot
